import Mathlib

/-
Verification of the content-extraction and crawl-orchestration engine of the
news collector (`news_automation.py`, with the optional rewriter in
`ai_rewriter.py`).

Embedding conventions:
* Pure Python string manipulation (hashing, URL parsing, query decoding,
  percent decoding, paragraph cleaning, slugification) is translated directly,
  statement by statement, into executable Lean functions.  Python truthiness of
  optional strings ([]/""/None are falsy) is made explicit via `optTruthy` /
  `pyOrO` / `pyOrD` helpers.
* HTML parsing (BeautifulSoup, readability, trafilatura, boilerpy3) cannot be
  embedded; a parsed document is abstracted as a `Doc` record whose fields hold
  exactly the values the source reads off the soup (meta/og tags, JSON-LD
  blocks, candidate paragraph texts per fallback stage, img tag attributes,
  CSS-selector lookup functions).  The control and data flow of the repository
  code over those values is translated faithfully.
* The network is abstracted as an oracle `String -> NetResult` giving, per URL,
  either an exception or a response (status, content type, final URL, text);
  `fetchHtmlEx` then is the literal translation of `fetch_html_ex`.
* Machine integers do not occur; the SHA-256 arithmetic uses `Nat` with
  explicit reduction `% 2^32`.
-/

namespace NewsAuto

/-! ### Python-semantics helpers -/

/-- Truthiness of an optional Python string: `None` and `""` are falsy. -/
def optTruthy : Option String → Bool
  | none => false
  | some s => s ≠ ""

/-- Python `a or b` on optional strings: keeps `a` when truthy, else `b`. -/
def pyOrO (a b : Option String) : Option String :=
  if optTruthy a then a else b

/-- Python `a or d` where the fallback is a plain string. -/
def pyOrD (a : Option String) (d : String) : String :=
  match a with
  | some s => if s ≠ "" then s else d
  | none => d

/-- Python `a or b` on plain strings ("" is falsy). -/
def pyOrS (a b : String) : String := if a ≠ "" then a else b

/-- Three-way Python `or` on optional strings. -/
def pyOr3O (a b c : Option String) : Option String := pyOrO a (pyOrO b c)

/-- Keep an optional string only when truthy. -/
def pyTruthyFilter (a : Option String) : Option String :=
  if optTruthy a then a else none

/-- Python whitespace (the set matched by `\s` / stripped by `str.strip()`),
restricted to the characters that can realistically occur here. -/
def isPyWs (c : Char) : Bool :=
  let n := c.toNat
  n == 9 || n == 10 || n == 11 || n == 12 || n == 13 || n == 28 || n == 29 ||
  n == 30 || n == 31 || n == 32 || n == 133 || n == 160 || n == 0x1680 ||
  (0x2000 ≤ n && n ≤ 0x200A) || n == 0x2028 || n == 0x2029 || n == 0x202F ||
  n == 0x205F || n == 0x3000

/-- Python `str.lower()` for the Latin range actually exercised by the code
(ASCII plus the Latin-1 capitals of the Portuguese snippets). -/
def pyLowerChar (c : Char) : Char :=
  let n := c.toNat
  if 65 ≤ n ∧ n ≤ 90 then Char.ofNat (n + 32)
  else if 0xC0 ≤ n ∧ n ≤ 0xDE ∧ n ≠ 0xD7 then Char.ofNat (n + 32)
  else c

def pyLower (s : String) : String := String.mk (s.data.map pyLowerChar)

/-- Python `str.strip()` (default whitespace strip). -/
def pyStrip (s : String) : String :=
  String.mk (((s.data.dropWhile isPyWs).reverse.dropWhile isPyWs).reverse)

/-- Does `needle` match at the head of `hay`? -/
def subAt : List Char → List Char → Bool
  | [], _ => true
  | _ :: _, [] => false
  | a :: n, b :: h => a == b && subAt n h

/-- Substring occurrence over char lists. -/
def hasSub (n : List Char) : List Char → Bool
  | [] => subAt n []
  | b :: h => subAt n (b :: h) || hasSub n h

/-- Python `needle in hay` on strings. -/
def pyIn (needle hay : String) : Bool := hasSub needle.data hay.data

/-- `s.startswith(pre)` (kernel-reducible replacement for the core
byte-position implementation). -/
def pyStartsWith (s pre : String) : Bool := subAt pre.data s.data

/-- Collapse each run of whitespace to a single `ch` (the effect of
`re.sub(r"\s+", ch, s)`); the boolean records whether the previous kept
character came from a whitespace run. -/
def collapseWsL (ch : Char) : List Char → Bool → List Char
  | [], _ => []
  | c :: rest, prevWs =>
    if isPyWs c then
      (if prevWs then [] else [ch]) ++ collapseWsL ch rest true
    else c :: collapseWsL ch rest false

/-- `re.sub(r"\s+", " ", s)`. -/
def normWs (s : String) : String := String.mk (collapseWsL ' ' s.data false)

/-- Number of words of `s.split()` (whitespace-separated, empties dropped). -/
def wordCountL : List Char → Bool → Nat
  | [], _ => 0
  | c :: rest, inWord =>
    if isPyWs c then wordCountL rest false
    else (if inWord then 0 else 1) + wordCountL rest true

def wordCount (s : String) : Nat := wordCountL s.data false

/-- Python slicing `s[:n]` on strings (character based). -/
def strTake (n : Nat) (s : String) : String := String.mk (s.data.take n)

/-! ### UTF-8 encoding and decoding -/

/-- Standard UTF-8 encoding of one scalar value (`str.encode("utf-8")`). -/
def utf8EncodeChar (c : Char) : List Nat :=
  let n := c.toNat
  if n < 0x80 then [n]
  else if n < 0x800 then [0xC0 + n / 64, 0x80 + n % 64]
  else if n < 0x10000 then
    [0xE0 + n / 4096, 0x80 + (n / 64) % 64, 0x80 + n % 64]
  else
    [0xF0 + n / 262144, 0x80 + (n / 4096) % 64, 0x80 + (n / 64) % 64,
     0x80 + n % 64]

def utf8Encode (s : String) : List Nat := (s.data.map utf8EncodeChar).flatten

/-- UTF-8 decoding with U+FFFD replacement on malformed input (the behaviour
of `bytes.decode("utf-8", errors="replace")`), fuelled by the list length. -/
def utf8DecodeGo : Nat → List Nat → List Char
  | 0, _ => []
  | _ + 1, [] => []
  | fuel + 1, b :: rest =>
    if b < 0x80 then Char.ofNat b :: utf8DecodeGo fuel rest
    else if 0xC2 ≤ b ∧ b ≤ 0xDF then
      match rest with
      | c :: r2 =>
        if 0x80 ≤ c ∧ c ≤ 0xBF then
          Char.ofNat ((b - 0xC0) * 64 + (c - 0x80)) :: utf8DecodeGo fuel r2
        else Char.ofNat 0xFFFD :: utf8DecodeGo fuel rest
      | [] => [Char.ofNat 0xFFFD]
    else if 0xE0 ≤ b ∧ b ≤ 0xEF then
      match rest with
      | c :: d :: r2 =>
        if (0x80 ≤ c ∧ c ≤ 0xBF) ∧ (0x80 ≤ d ∧ d ≤ 0xBF) ∧
           (b ≠ 0xE0 ∨ 0xA0 ≤ c) ∧ (b ≠ 0xED ∨ c ≤ 0x9F) then
          Char.ofNat ((b - 0xE0) * 4096 + (c - 0x80) * 64 + (d - 0x80)) ::
            utf8DecodeGo fuel r2
        else Char.ofNat 0xFFFD :: utf8DecodeGo fuel rest
      | _ => [Char.ofNat 0xFFFD]
    else if 0xF0 ≤ b ∧ b ≤ 0xF4 then
      match rest with
      | c :: d :: e :: r2 =>
        if (0x80 ≤ c ∧ c ≤ 0xBF) ∧ (0x80 ≤ d ∧ d ≤ 0xBF) ∧
           (0x80 ≤ e ∧ e ≤ 0xBF) ∧ (b ≠ 0xF0 ∨ 0x90 ≤ c) ∧
           (b ≠ 0xF4 ∨ c ≤ 0x8F) then
          Char.ofNat ((b - 0xF0) * 262144 + (c - 0x80) * 4096 +
            (d - 0x80) * 64 + (e - 0x80)) :: utf8DecodeGo fuel r2
        else Char.ofNat 0xFFFD :: utf8DecodeGo fuel rest
      | _ => [Char.ofNat 0xFFFD]
    else Char.ofNat 0xFFFD :: utf8DecodeGo fuel rest

def utf8DecodeRep (bs : List Nat) : List Char := utf8DecodeGo bs.length bs

/-! ### SHA-256 over `Nat` (for `stable_id`) -/

def M32 : Nat := 4294967296

def add32 (a b : Nat) : Nat := (a + b) % M32

def not32 (x : Nat) : Nat := 4294967295 - x % M32

def rotr32 (n x : Nat) : Nat :=
  (x / 2 ^ n + x % 2 ^ n * 2 ^ (32 - n)) % M32

def shr32 (n x : Nat) : Nat := x / 2 ^ n

def sigma0 (x : Nat) : Nat :=
  Nat.xor (rotr32 7 x) (Nat.xor (rotr32 18 x) (shr32 3 x))

def sigma1 (x : Nat) : Nat :=
  Nat.xor (rotr32 17 x) (Nat.xor (rotr32 19 x) (shr32 10 x))

def bigSigma0 (x : Nat) : Nat :=
  Nat.xor (rotr32 2 x) (Nat.xor (rotr32 13 x) (rotr32 22 x))

def bigSigma1 (x : Nat) : Nat :=
  Nat.xor (rotr32 6 x) (Nat.xor (rotr32 11 x) (rotr32 25 x))

def shaK : List Nat :=
  [1116352408, 1899447441, 3049323471, 3921009573, 961987163,
   1508970993, 2453635748, 2870763221, 3624381080, 310598401,
   607225278, 1426881987, 1925078388, 2162078206, 2614888103,
   3248222580, 3835390401, 4022224774, 264347078, 604807628,
   770255983, 1249150122, 1555081692, 1996064986, 2554220882,
   2821834349, 2952996808, 3210313671, 3336571891, 3584528711,
   113926993, 338241895, 666307205, 773529912, 1294757372,
   1396182291, 1695183700, 1986661051, 2177026350, 2456956037,
   2730485921, 2820302411, 3259730800, 3345764771, 3516065817,
   3600352804, 4094571909, 275423344, 430227734, 506948616,
   659060556, 883997877, 958139571, 1322822218, 1537002063,
   1747873779, 1955562222, 2024104815, 2227730452, 2361852424,
   2428436474, 2756734187, 3204031479, 3329325298]

def shaH0 : List Nat :=
  [1779033703, 3144134277, 1013904242, 2773480762,
   1359893119, 2600822924, 528734635, 1541459225]

/-- Big-endian 8-byte encoding of the bit length. -/
def be8 (n : Nat) : List Nat :=
  [n / 2 ^ 56 % 256, n / 2 ^ 48 % 256, n / 2 ^ 40 % 256, n / 2 ^ 32 % 256,
   n / 2 ^ 24 % 256, n / 2 ^ 16 % 256, n / 2 ^ 8 % 256, n % 256]

/-- Big-endian 4-byte encoding of a 32-bit word. -/
def be4 (n : Nat) : List Nat :=
  [n / 2 ^ 24 % 256, n / 2 ^ 16 % 256, n / 2 ^ 8 % 256, n % 256]

/-- SHA-256 message padding. -/
def padMsg (bs : List Nat) : List Nat :=
  let len := bs.length
  let k := (120 - (len + 1) % 64) % 64
  bs ++ [0x80] ++ List.replicate k 0 ++ be8 (len * 8)

/-- Big-endian 32-bit words of a byte list. -/
def wordsOfBytes : List Nat → List Nat
  | b0 :: b1 :: b2 :: b3 :: rest =>
    (((b0 * 256 + b1) * 256 + b2) * 256 + b3) :: wordsOfBytes rest
  | _ => []

/-- Next schedule word, given the reversed schedule built so far. -/
def wNext (wrev : List Nat) : Nat :=
  add32 (add32 (wrev.getD 15 0) (sigma0 (wrev.getD 14 0)))
    (add32 (wrev.getD 6 0) (sigma1 (wrev.getD 1 0)))

def extendLoop : Nat → List Nat → List Nat
  | 0, wrev => wrev
  | n + 1, wrev => extendLoop n (wNext wrev :: wrev)

/-- The 64-word message schedule of one block. -/
def schedule (block : List Nat) : List Nat :=
  (extendLoop 48 block.reverse).reverse

/-- One round of the SHA-256 compression function on `[a,b,c,d,e,f,g,h]`. -/
def compressStep (st : List Nat) (kw : Nat × Nat) : List Nat :=
  match st with
  | [a, b, c, d, e, f, g, h] =>
    let s1 := bigSigma1 e
    let ch := Nat.xor (Nat.land e f) (Nat.land (not32 e) g)
    let t1 := add32 (add32 (add32 h s1) (add32 ch kw.1)) kw.2
    let s0 := bigSigma0 a
    let mj := Nat.xor (Nat.xor (Nat.land a b) (Nat.land a c)) (Nat.land b c)
    let t2 := add32 s0 mj
    [add32 t1 t2, a, b, c, add32 d t1, e, f, g]
  | other => other

def compressBlock (h : List Nat) (block : List Nat) : List Nat :=
  let w := schedule block
  let st := (shaK.zip w).foldl compressStep h
  List.zipWith add32 h st

def chunk64Go : Nat → List Nat → List (List Nat)
  | _, [] => []
  | 0, _ => []
  | f + 1, l => wordsOfBytes (l.take 64) :: chunk64Go f (l.drop 64)

/-- `hashlib.sha256(msg).digest()` as a byte list. -/
def sha256Bytes (msg : List Nat) : List Nat :=
  let blocks := chunk64Go (padMsg msg).length (padMsg msg)
  ((blocks.foldl compressBlock shaH0).map be4).flatten

/-- URL-safe base64 alphabet. -/
def b64Char (n : Nat) : Char :=
  if n < 26 then Char.ofNat (65 + n)
  else if n < 52 then Char.ofNat (97 + n - 26)
  else if n < 62 then Char.ofNat (48 + n - 52)
  else if n = 62 then '-'
  else '_'

/-- `base64.urlsafe_b64encode` over a byte list (with `=` padding). -/
def b64Go : Nat → List Nat → List Char
  | 0, _ => []
  | _ + 1, [] => []
  | fuel + 1, [b0] =>
    let v := b0 * 16
    b64Char (b0 / 4) :: b64Char (v % 64) :: '=' :: '=' :: b64Go fuel []
  | fuel + 1, [b0, b1] =>
    let v := (b0 * 256 + b1) * 4
    b64Char (b0 / 4) :: b64Char (v / 64 % 64) :: b64Char (v % 64) :: '=' ::
      b64Go fuel []
  | fuel + 1, b0 :: b1 :: b2 :: rest =>
    let v := (b0 * 256 + b1) * 256 + b2
    b64Char (v / 262144) :: b64Char (v / 4096 % 64) :: b64Char (v / 64 % 64) ::
      b64Char (v % 64) :: b64Go fuel rest

def b64UrlsafeEncode (bs : List Nat) : String :=
  String.mk (b64Go (bs.length + 1) bs)

/-- `s.rstrip("=")`. -/
def rstripEq (s : String) : String :=
  String.mk ((s.data.reverse.dropWhile (· == '=')).reverse)

/-- `stable_id` from `news_automation.py`: first nine bytes of the SHA-256 of
the UTF-8 encoded URL, URL-safe base64 encoded, `=` padding stripped. -/
def stable_id (url : String) : String :=
  rstripEq (b64UrlsafeEncode ((sha256Bytes (utf8Encode url)).take 9))

/-! ### Model of the used parts of `urllib.parse` -/

/-- Result of `urllib.parse.urlsplit` (the `params` component of `urlparse`
never occurs in this code base and is omitted). -/
structure UrlParts where
  scheme : String
  netloc : String
  path : String
  query : String
  fragment : String
deriving DecidableEq

/-- Split at the first occurrence of `sep`, if any. -/
def splitFirstOn (sep : Char) : List Char → Option (List Char × List Char)
  | [] => none
  | c :: rest =>
    if c = sep then some ([], rest)
    else
      match splitFirstOn sep rest with
      | some (a, b) => some (c :: a, b)
      | none => none

/-- Python `s.split(sep)` for a one-character separator (keeps empties). -/
def splitCharGo (sep : Char) : Nat → List Char → List (List Char)
  | 0, l => [l]
  | fuel + 1, l =>
    match splitFirstOn sep l with
    | some (a, b) => a :: splitCharGo sep fuel b
    | none => [l]

def splitChar (sep : Char) (s : String) : List String :=
  (splitCharGo sep s.data.length s.data).map String.mk

def isSchemeChar (c : Char) : Bool :=
  c.isAlpha || c.isDigit || c == '+' || c == '-' || c == '.'

/-- Strip WHATWG C0-control-or-space characters from both ends. -/
def stripC0 (l : List Char) : List Char :=
  ((l.dropWhile (fun c => c.toNat ≤ 0x20)).reverse.dropWhile
    (fun c => c.toNat ≤ 0x20)).reverse

/-- `urllib.parse.urlsplit`: sanitize, then split off fragment, scheme,
netloc (up to the first `/` or `?` after `//`) and query. -/
def urlsplit (url : String) : UrlParts :=
  let l := (stripC0 url.data).filter
    (fun c => ¬(c = '\t' ∨ c = '\r' ∨ c = '\n'))
  let (l, fragment) :=
    match splitFirstOn '#' l with
    | some (a, b) => (a, b)
    | none => (l, [])
  let (scheme, l) :=
    match splitFirstOn ':' l with
    | some (pre, rest) =>
      if pre ≠ [] ∧ (pre.headD ' ').isAlpha ∧ pre.all isSchemeChar then
        (pre.map pyLowerChar, rest)
      else ([], l)
    | none => ([], l)
  let (netloc, l) :=
    if l.take 2 = ['/', '/'] then
      ((l.drop 2).takeWhile (fun c => ¬(c = '/' ∨ c = '?')),
       (l.drop 2).dropWhile (fun c => ¬(c = '/' ∨ c = '?')))
    else ([], l)
  let (path, query) :=
    match splitFirstOn '?' l with
    | some (a, b) => (a, b)
    | none => (l, [])
  ⟨String.mk scheme, String.mk netloc, String.mk path, String.mk query,
   String.mk fragment⟩

def hexVal (c : Char) : Option Nat :=
  let n := c.toNat
  if 48 ≤ n ∧ n ≤ 57 then some (n - 48)
  else if 97 ≤ n ∧ n ≤ 102 then some (n - 87)
  else if 65 ≤ n ∧ n ≤ 70 then some (n - 55)
  else none

/-- Collect the maximal run of `%XX` escapes at the head, as bytes. -/
def collectPct : List Char → List Nat × List Char
  | '%' :: a :: b :: rest =>
    match hexVal a, hexVal b with
    | some ha, some hb =>
      let (bs, r) := collectPct rest
      ((ha * 16 + hb) :: bs, r)
    | _, _ => ([], '%' :: a :: b :: rest)
  | l => ([], l)

/-- `urllib.parse.unquote`: runs of percent escapes are decoded as UTF-8 with
replacement; everything else passes through (invalid escapes stay literal). -/
def unquoteGo : Nat → List Char → List Char
  | 0, _ => []
  | _ + 1, [] => []
  | fuel + 1, c :: rest =>
    if c = '%' then
      match collectPct (c :: rest) with
      | ([], _) => c :: unquoteGo fuel rest
      | (bs, r) => utf8DecodeRep bs ++ unquoteGo fuel r
    else c :: unquoteGo fuel rest

def unquote (s : String) : String := String.mk (unquoteGo s.data.length s.data)

/-- `unquote` after `'+' -> ' '`, as applied by `parse_qsl` to each field. -/
def unquotePlus (s : String) : String :=
  unquote (String.mk (s.data.map (fun c => if c = '+' then ' ' else c)))

/-- `urllib.parse.parse_qsl(qs)` with the default `keep_blank_values=False`:
split on `&`, drop empty fields, fields without `=`, and fields with an empty
value; percent-plus-decode names and values. -/
def parse_qsl (qs : String) : List (String × String) :=
  (splitChar '&' qs).filterMap fun field =>
    if field = "" then none
    else
      match splitFirstOn '=' field.data with
      | none => none
      | some (n, v) =>
        if v = [] then none
        else some (unquotePlus (String.mk n), unquotePlus (String.mk v))

/-- `parse_qs(q).get(k, [None])[0]`, already filtered by Python truthiness
(the callers all guard the result with `if target:`). -/
def qsTruthyVal (q k : String) : Option String :=
  match (parse_qsl q).find? (fun kv => kv.1 == k) with
  | some kv => if kv.2 ≠ "" then some kv.2 else none
  | none => none

/-! ### URL helpers of `news_automation.py` -/

/-- `hostname_from_url`: netloc with one leading `www.` removed. -/
def hostname_from_url (url : String) : String :=
  let n := (urlsplit url).netloc
  if pyStartsWith n "www." then String.mk (n.data.drop 4) else n

/-- `is_google_news`. -/
def is_google_news (u : String) : Bool :=
  pyIn "news.google." (pyLower (urlsplit u).netloc)

/-- `unwrap_special_links`: decode the target of facebook redirect wrappers;
everything else (including a wrapper without a truthy target) falls through
to the next check or to the unchanged URL. -/
def unwrap_special_links (url : String) : String :=
  let u := urlsplit url
  let host := pyLower u.netloc
  match (if pyIn "l.facebook.com" host && pyStartsWith u.path "/l.php" then
          qsTruthyVal u.query "u" else none) with
  | some t => unquote t
  | none =>
    if pyIn "facebook.com" host && pyIn "href=" u.query then
      match qsTruthyVal u.query "href" with
      | some t => unquote t
      | none => url
    else url

/-- A URL on which `unwrap_special_links` fires: a recognized facebook
wrapper whose decoded query carries a truthy target. -/
def isResolvableWrapper (v : String) : Bool :=
  let u := urlsplit v
  let host := pyLower u.netloc
  (pyIn "l.facebook.com" host && pyStartsWith u.path "/l.php" &&
    (qsTruthyVal u.query "u").isSome) ||
  (pyIn "facebook.com" host && pyIn "href=" u.query &&
    (qsTruthyVal u.query "href").isSome)

/-- `absolutize_url` (the `urljoin` of the standard library is abstracted as
a function argument; falsy sources collapse to `None`). -/
def absolutize_url (urljoin : String → String → String)
    (src : Option String) (base : Option String) : Option String :=
  match src with
  | none => none
  | some s => if s = "" then none else some (urljoin (pyOrD base "") s)

/-- The fallback `slugify` defined in the source (lower, strip, whitespace
runs to `-`, drop everything outside `[a-z0-9-]`). -/
def slugify (s : String) : String :=
  let t := (pyStrip (pyLower s)).data
  String.mk ((collapseWsL '-' t false).filter
    (fun c => c.isLower || c.isDigit || c = '-'))

/-- `is_ilhabela_article`: case-insensitive search for
`https?://(www.)?ilhabela.sp.gov.br/portal/noticias/0/3/\d+/`. -/
def ilhMatchAt (l : List Char) : Bool :=
  let l := l.map pyLowerChar
  let afterScheme : Option (List Char) :=
    if subAt "https://".data l then some (l.drop 8)
    else if subAt "http://".data l then some (l.drop 7)
    else none
  match afterScheme with
  | none => false
  | some r =>
    let r := if subAt "www.".data r then r.drop 4 else r
    let pre := "ilhabela.sp.gov.br/portal/noticias/0/3/".data
    if subAt pre r then
      let rest := r.drop pre.length
      let digits := rest.takeWhile Char.isDigit
      digits ≠ [] && (rest.drop digits.length).headD ' ' = '/'
    else false

def ilhSearch : List Char → Bool
  | [] => ilhMatchAt []
  | c :: rest => ilhMatchAt (c :: rest) || ilhSearch rest

def is_ilhabela_article (href : String) : Bool := ilhSearch href.data

/-! ### Paragraph classifier -/

def BAD_SNIPPETS : List String :=
  ["leia mais", "leia também", "saiba mais", "veja também", "veja mais",
   "continue lendo", "continue a ler", "clique aqui", "acesse aqui",
   "inscreva-se", "assine", "newsletter", "compartilhe", "instagram",
   "twitter", "x.com", "facebook", "publicidade", "anúncio",
   "voltar ao topo", "cookies"]

/-- Word characters for the `\b` boundary of the CTA regex (ASCII word
characters plus Latin-1 letters). -/
def isWordChar (c : Char) : Bool :=
  c.isAlphanum || c = '_' ||
  (0xC0 ≤ c.toNat && c.toNat ≤ 0xFF && c.toNat ≠ 0xD7 && c.toNat ≠ 0xF7)

/-- Does `w` followed by a word boundary match at the head of `s`? -/
def wordAtHead (w : List Char) (s : List Char) : Bool :=
  match w, s with
  | [], [] => true
  | [], c :: _ => !isWordChar c
  | _ :: _, [] => false
  | a :: w2, c :: s2 => a == c && wordAtHead w2 s2

/-- `re.match(r"^(?:leia|veja|saiba|assine|clique)\b", low)`. -/
def ctaStart (low : String) : Bool :=
  ["leia", "veja", "saiba", "assine", "clique"].any
    (fun w => wordAtHead w.data low.data)

/-- `clean_paragraph`: whitespace normalization, then rejection of empty
text, curated-snippet carriers, short text, and CTA-verb openers. -/
def clean_paragraph (p : Option String) : Option String :=
  let txt := pyStrip (normWs (p.getD ""))
  if txt = "" then none
  else
    let low := pyLower txt
    if BAD_SNIPPETS.any (fun b => pyIn b low) then none
    else if txt.length < 16 then none
    else if ctaStart low then none
    else some txt

/-! ### Fetcher -/

/-- One network attempt as seen by `fetch_html_ex`: either the `httpx` call
raised, or it produced a response with status, content type, post-redirect
URL and text body. -/
inductive NetResult where
  | exc (msg : String)
  | resp (status : Nat) (ctype : String) (finalUrl : String) (text : String)
deriving DecidableEq

/-- The `info` dict built by `fetch_html_ex`. -/
structure FetchInfo where
  requestUrl : String
  ok : Bool
  status : Option Nat
  ctype : String
  finalUrl : String
  error : Option String
deriving DecidableEq

/-- The content-type test of `fetch_html_ex`. -/
def htmlFamilyCtype (ct : String) : Bool :=
  pyIn "text/html" ct || pyIn "application/xhtml" ct || pyStartsWith ct "text/"

/-- `fetch_html_ex`: record status/ctype/final URL, accept 2xx responses in
the HTML content-type family, catch every exception into a truncated
diagnostic, and never raise. -/
def fetchHtmlEx (url : String) (net : NetResult) : Option String × FetchInfo :=
  match net with
  | .exc msg =>
    (none, ⟨url, false, none, "", url, some (strTake 300 msg)⟩)
  | .resp st ct fu text =>
    if 200 ≤ st ∧ st < 300 ∧ htmlFamilyCtype ct then
      (some text, ⟨url, true, some st, ct, fu, none⟩)
    else
      (none, ⟨url, false, some st, ct, fu, none⟩)

/-! ### Abstract parsed document

BeautifulSoup, readability, trafilatura and boilerpy3 are HTML parsers that
cannot be embedded; a `Doc` holds exactly the values the repository code
reads off them for one document, and the repository logic over those values
is translated verbatim. -/

/-- The JSON image value of a JSON-LD block (`d.get("image")`). -/
inductive LdImage where
  | nullv
  | strv (s : String)
  | listv (l : List LdImage)
  | dictv (url : Option String)

/-- One successfully `json.loads`-parsed JSON-LD script block (a top-level
list is already collapsed to its first element, as in the source). -/
structure LdBlock where
  typeStr : String
  headline : Option String
  name : Option String
  image : LdImage
  articleBody : Option String

/-- Attributes of an `<img>` tag read by the image extractors. -/
structure ImgTag where
  src : Option String
  dataSrc : Option String
  dataOriginal : Option String
  srcset : Option String
  dataSrcset : Option String

/-- Attributes of an element found by a custom image selector. -/
structure SelImgEl where
  content : Option String
  src : Option String
  dataSrc : Option String

/-- Everything the code reads from one parsed HTML document. -/
structure Doc where
  /-- JSON-LD blocks, in document order, that parsed as JSON. -/
  ldBlocks : List LdBlock
  /-- Content of `meta property="og:title"` (absent tag or attr collapse). -/
  ogTitle : Option String
  /-- `<title>` text as `get_text(" ", strip=True)`. -/
  titleTag : Option String
  /-- First `<h1>` text as `get_text(" ", strip=True)`. -/
  h1Text : Option String
  /-- Result of `extract_og_twitter_image`. -/
  ogImage : Option String
  /-- Result of `extract_img_from_root`. -/
  rootImage : Option String
  /-- All `<img>` tags of the document for the final fallback loop. -/
  allImgs : List ImgTag
  /-- Texts of `<p>` elements under the content root that survive the
  script/nav/aside/footer/header/noscript/figure/style parent filter. -/
  pTexts : List String
  /-- Texts of `ul`/`ol` elements under the content root. -/
  listTexts : List String
  /-- Paragraph texts of the readability summary (`none` = raised). -/
  readabilityTexts : Option (List String)
  /-- `trafilatura.extract` output (`none` = library absent, raised, or
  falsy output). -/
  trafilaturaText : Option String
  /-- boilerpy3 `ArticleExtractor().get_content` output (`none` = raised). -/
  boilerText : Option String
  /-- `soup.get_text("\n", strip=True)` of the whole document. -/
  rawText : String
  /-- `href` of `link rel~=amphtml` (absent tag collapses to `none`). -/
  ampHref : Option String
  /-- `select_one(sel).get_text(" ", strip=True)` (`none` = no element). -/
  selOneText : String → Option String
  /-- `select_one(sel)` attributes for an image selector. -/
  selOneImg : String → Option SelImgEl
  /-- `get_text(" ", strip=True)` of each element of `select(sel)`. -/
  selTexts : String → List String

/-! ### Extraction cascade -/

def isArticleType (t : String) : Bool :=
  let typ := pyLower t
  ["article", "newsarticle", "blogposting"].any (fun x => pyIn x typ)

/-- The `out` dict of `parse_schema_org`. -/
structure SchemaOut where
  headline : Option String := none
  image : Option LdImage := none
  paragraphs : Option (List String) := none

/-- The image normalization inside `parse_schema_org`: a list is collapsed
to its first element (or null), then a dict to its `url`. -/
def ldImageNorm (img : LdImage) : LdImage :=
  let i1 := match img with
    | .listv (x :: _) => x
    | .listv [] => .nullv
    | x => x
  match i1 with
  | .dictv (some u) => .strv u
  | .dictv none => .nullv
  | x => x

/-- `re.split(r"\n{1,}", s)` / `re.split(r"\n{2,}", s)`: split on maximal
newline runs of length at least `minRun`. -/
def splitNlGo (minRun : Nat) (cur : List Char) (pend : Nat) :
    List Char → List (List Char)
  | [] =>
    if minRun ≤ pend ∧ 0 < pend then [cur.reverse, []]
    else [(List.replicate pend '\n' ++ cur).reverse]
  | c :: rest =>
    if c = '\n' then splitNlGo minRun cur (pend + 1) rest
    else if minRun ≤ pend ∧ 0 < pend then
      cur.reverse :: splitNlGo minRun [c] 0 rest
    else splitNlGo minRun (c :: (List.replicate pend '\n' ++ cur)) 0 rest

def splitNl (minRun : Nat) (s : String) : List String :=
  (splitNlGo minRun [] 0 s.data).map String.mk

/-- `parse_schema_org`: take the first article-typed JSON-LD block; its
headline-or-name, normalized image, and (when the body is truthy) the
cleaned newline-split paragraphs of `articleBody`. -/
def parse_schema_org (blocks : List LdBlock) : SchemaOut :=
  match blocks.find? (fun b => isArticleType b.typeStr) with
  | none => {}
  | some b =>
    { headline := pyOrO b.headline b.name,
      image := some (ldImageNorm b.image),
      paragraphs :=
        match b.articleBody with
        | some body =>
          if body ≠ "" then
            some ((splitNl 1 body).filterMap (fun x => clean_paragraph (some x)))
          else none
        | none => none }

/-- `title_from_html`: schema headline, else truthy og:title stripped, else
truthy `<title>` text, else truthy `<h1>` text. -/
def title_from_html (d : Doc) : Option String :=
  let sc := (parse_schema_org d.ldBlocks).headline
  if optTruthy sc then sc
  else if optTruthy d.ogTitle then some (pyStrip (d.ogTitle.getD ""))
  else if optTruthy d.titleTag then d.titleTag
  else if optTruthy d.h1Text then d.h1Text
  else none

/-- `srcset.split(",")[0].strip().split(" ")[0].strip()`. -/
def firstSrcsetUrl (srcset : String) : String :=
  let first := pyStrip (String.mk (srcset.data.takeWhile (· ≠ ',')))
  pyStrip (String.mk (first.data.takeWhile (· ≠ ' ')))

/-- The src resolution shared by the img loops:
`src or data-src or data-original`, falling back to the first srcset entry. -/
def imgTagSrc (t : ImgTag) : Option String :=
  let src := pyOr3O t.src t.dataSrc t.dataOriginal
  if optTruthy src then src
  else
    let sset := pyOrD (pyOrO t.srcset t.dataSrcset) ""
    if sset ≠ "" then some (firstSrcsetUrl sset) else src

def badImgSub (s : String) : Bool :=
  [".svg", "sprite", "data:image", "logo", "icon"].any
    (fun x => pyIn x (pyLower s))

/-- The trailing fallback loop of `image_from_html_best` over the first ten
`<img>` tags of the document. -/
def firstGoodImg (urljoin : String → String → String) (base : Option String) :
    List ImgTag → Option String
  | [] => none
  | t :: rest =>
    match imgTagSrc t with
    | none => firstGoodImg urljoin base rest
    | some s =>
      if s = "" then firstGoodImg urljoin base rest
      else if badImgSub s then firstGoodImg urljoin base rest
      else absolutize_url urljoin (some s) base

/-- `image_from_html_best`: og/twitter meta image, else content-root image,
else first plausible document image; absolutized against the base. -/
def image_from_html_best (urljoin : String → String → String) (d : Doc)
    (base : Option String) : Option String :=
  if optTruthy d.ogImage then absolutize_url urljoin d.ogImage base
  else if optTruthy d.rootImage then absolutize_url urljoin d.rootImage base
  else firstGoodImg urljoin base (d.allImgs.take 10)

/-- The `ul`/`ol` fallback loop of `paragraphs_from_html` (append cleaned
list texts longer than 120 chars, stop at eight paragraphs). -/
def listStage (ps : List String) : List String → List String
  | [] => ps
  | u :: rest =>
    let ps := match clean_paragraph (some u) with
      | some t => if 120 < t.length then ps ++ [t] else ps
      | none => ps
    if 8 ≤ ps.length then ps else listStage ps rest

/-- The final order-preserving dedup loop of `paragraphs_from_html`. -/
def pyDedupGo (out : List String) : List String → List String
  | [] => out
  | p :: rest =>
    if p ∈ out then pyDedupGo out rest else pyDedupGo (out ++ [p]) rest

def pyDedup (ps : List String) : List String := pyDedupGo [] ps

def cleanedOf (ts : List String) : List String :=
  ts.filterMap (fun t => clean_paragraph (some t))

/-- `paragraphs_from_html`: content-root `<p>` texts, then (while fewer than
two paragraphs) the list fallback, readability, trafilatura (which replaces),
boilerpipe (which replaces unless empty), then the raw-text fallback when
still empty; deduplicated and capped at 14. -/
def paragraphs_from_html (d : Doc) : List String :=
  let ps := cleanedOf d.pTexts
  let ps := if ps.length < 2 then listStage ps d.listTexts else ps
  let ps := if ps.length < 2 then
      match d.readabilityTexts with
      | some ts => ps ++ cleanedOf ts
      | none => ps
    else ps
  let ps := if ps.length < 2 then
      match d.trafilaturaText with
      | some ex => (cleanedOf (splitNl 1 ex)).take 12
      | none => ps
    else ps
  let ps := if ps.length < 2 then
      match d.boilerText with
      | some tx =>
        let cand := (cleanedOf (splitNl 1 tx)).take 12
        if cand ≠ [] then cand else ps
      | none => ps
    else ps
  let ps := if ps = [] then (cleanedOf (splitNl 2 d.rawText)).take 8 else ps
  (pyDedup ps).take 14

/-! ### Optional AI rewriter (`ai_rewriter.py`) -/

/-- A JSON array element of the model response (`isinstance(p, str)`). -/
inductive JVal where
  | str (v : String)
  | nonstr

/-- The parsed JSON object of a successful model response. -/
structure LlmOut where
  title : Option String
  paragraphs : List JVal

/-- The word-count completion loop: append original paragraphs until the
word count reaches 200. -/
def fillLoop (wc : Nat) (acc : List String) : List String → List String
  | [] => acc
  | p :: rest =>
    if 200 ≤ wc then acc else fillLoop (wc + wordCount p) (acc ++ [p]) rest

/-- `rewrite_with_openrouter`: `resp = none` covers a missing API key, any
transport error, a non-JSON body, and `json.loads` failure — all of which
return the inputs unchanged (fail open).  Otherwise keep truthy string
paragraphs, top up to 200 words from the originals, cap at ten. -/
def rewrite_with_openrouter (resp : Option LlmOut) (title : Option String)
    (paragraphs : List String) : Option String × List String :=
  match resp with
  | none => (title, paragraphs)
  | some data =>
    let newTitle := pyOrO data.title title
    let newPars := data.paragraphs.filterMap fun v =>
      match v with
      | .str s => if pyStrip s ≠ "" then some s else none
      | .nonstr => none
    let wc := (newPars.map wordCount).sum
    let newPars := if wc < 200 then fillLoop wc newPars paragraphs else newPars
    (newTitle, newPars.take 10)

/-! ### Acceptance gate -/

inductive Reason where
  | no_h1
  | no_image
  | no_paragraphs
deriving DecidableEq

/-- Truthiness of `title and title.strip()`. -/
def titleTruthy (t : Option String) : Bool :=
  match t with
  | none => false
  | some s => pyStrip s ≠ ""

/-- The gate at the end of `process_article`: `no_h1` when a required title
is missing or blank, then `no_image` when a required image is missing, then
`no_paragraphs` when the paragraph list is empty. -/
def acceptGate (requireH1 requireImg : Bool) (title image : Option String)
    (paragraphs : List String) : Option Reason :=
  if requireH1 && !titleTruthy title then some .no_h1
  else if requireImg && !optTruthy image then some .no_image
  else if paragraphs.isEmpty then some .no_paragraphs
  else none

/-! ### The per-URL pipeline (`process_article`) -/

/-- The selector rule row passed down from `/crawl_site` (`None` or a dict
with the three keys; a dict with keys is truthy even when all values are
`None`). -/
structure Selectors where
  title_sel : Option String
  image_sel : Option String
  para_sel : Option String

/-- The oracles a pipeline run interacts with: the network, the HTML parser,
the Google-News interstitial link extractor, `urljoin`, and the optional
rewriter configuration and response. -/
structure Env where
  net : String → NetResult
  parse : String → Doc
  gnewsExternal : String → String → Option String
  urljoin : String → String → String
  useAi : Bool
  llm : Option String → List String → String → String → Option LlmOut

/-- The mutable `title`/`image`/`paragraphs` accumulator of
`process_article`. -/
structure Draft where
  title : Option String := none
  image : Option String := none
  paragraphs : List String := []
deriving DecidableEq

/-- The custom-selector stage (runs first, on the initial empty draft):
unconditional title/image assignment from `select_one`, paragraphs from
`select` when non-empty, capped at 14. -/
def stageSelectors (env : Env) (html : Option String)
    (selectors : Option Selectors) (st : Draft) : Draft :=
  match html, selectors with
  | some h, some sel =>
    if h ≠ "" then
      let d := env.parse h
      let title := if optTruthy sel.title_sel then
          match d.selOneText (sel.title_sel.getD "") with
          | some t => some t
          | none => st.title
        else st.title
      let image := if optTruthy sel.image_sel then
          match d.selOneImg (sel.image_sel.getD "") with
          | some el => pyOr3O el.content el.src el.dataSrc
          | none => st.image
        else st.image
      let paragraphs := if optTruthy sel.para_sel then
          let ps := cleanedOf (d.selTexts (sel.para_sel.getD ""))
          if ps ≠ [] then ps.take 14 else st.paragraphs
        else st.paragraphs
      ⟨title, image, paragraphs⟩
    else st
  | _, _ => st

/-- The normal extraction stage (`if html and not paragraphs:`): fill the
title from the cascade or the feed hint, fill the image, then take schema
paragraphs and finally the paragraph cascade. -/
def stageNormal (env : Env) (html : Option String) (feedTitle : Option String)
    (base : String) (st : Draft) : Draft :=
  match html with
  | some h =>
    if h ≠ "" ∧ st.paragraphs = [] then
      let d := env.parse h
      let title := pyOrO st.title
        (pyOrO (title_from_html d) (some (pyOrD feedTitle "")))
      let image := pyOrO st.image (image_from_html_best env.urljoin d (some base))
      let sc := parse_schema_org d.ldBlocks
      let paragraphs := match sc.paragraphs with
        | some ps => if ps ≠ [] then ps else st.paragraphs
        | none => st.paragraphs
      let paragraphs := if paragraphs = [] then paragraphs_from_html d
        else paragraphs
      ⟨title, image, paragraphs⟩
    else st
  | none => st

/-- Title fill from the custom selector inside the AMP fallback
(`if el and not title`). -/
def ampSelTitle (d : Doc) (selectors : Option Selectors)
    (title : Option String) : Option String :=
  match selectors with
  | some sel =>
    if optTruthy sel.title_sel then
      match d.selOneText (sel.title_sel.getD "") with
      | some t => if !optTruthy title then some t else title
      | none => title
    else title
  | none => title

/-- Image fill from the custom selector inside the AMP fallback
(`if el and not image`). -/
def ampSelImage (d : Doc) (selectors : Option Selectors)
    (image : Option String) : Option String :=
  match selectors with
  | some sel =>
    if optTruthy sel.image_sel then
      match d.selOneImg (sel.image_sel.getD "") with
      | some el => if !optTruthy image then pyOr3O el.content el.src el.dataSrc
          else image
      | none => image
    else image
  | none => image

/-- The AMP fallback stage (`if (not paragraphs) and (html or "")`): fetch
the declared AMP page, update the base URL, and fill — never overwrite —
the still-empty fields from it. -/
def stageAmp (env : Env) (html : Option String) (selectors : Option Selectors)
    (base : String) (finalUrlUsed : Option String) (st : Draft) :
    Draft × String × Option String :=
  if st.paragraphs = [] ∧ optTruthy html then
    let d := env.parse (html.getD "")
    match d.ampHref with
    | some href =>
      if href ≠ "" then
        let ampUrl := env.urljoin base href
        let fetched := fetchHtmlEx ampUrl (env.net ampUrl)
        let finalUrlUsed :=
          pyOrO finalUrlUsed (some (pyOrS fetched.2.finalUrl ampUrl))
        let base := pyOrD finalUrlUsed base
        match fetched.1 with
        | some ah =>
          if ah ≠ "" then
            let d3 := env.parse ah
            let title := ampSelTitle d3 selectors st.title
            let image := ampSelImage d3 selectors st.image
            let title := if !optTruthy title then pyOrO (title_from_html d3) title
              else title
            let image := if !optTruthy image then
                image_from_html_best env.urljoin d3 (some base)
              else image
            let paragraphs := if st.paragraphs = [] then paragraphs_from_html d3
              else st.paragraphs
            (⟨title, image, paragraphs⟩, base, finalUrlUsed)
          else (st, base, finalUrlUsed)
        | none => (st, base, finalUrlUsed)
      else (st, base, finalUrlUsed)
    | none => (st, base, finalUrlUsed)
  else (st, base, finalUrlUsed)

/-- The Google-News follow step: when the fetched page still lives on
`news.google.*`, extract the outbound article link and fetch it, keeping the
original document when the second fetch yields nothing truthy. -/
def gnewsFollow (env : Env) (html : Option String) (info : FetchInfo) :
    Option String × Option String :=
  if info.finalUrl ≠ "" ∧ is_google_news info.finalUrl then
    match pyTruthyFilter (env.gnewsExternal (pyOrD html "") info.finalUrl) with
    | some ext =>
      let fetched2 := fetchHtmlEx ext (env.net ext)
      if optTruthy fetched2.1 then
        (fetched2.1, some (pyOrS fetched2.2.finalUrl ext))
      else (html, none)
    | none => (html, none)
  else (html, none)

/-- Everything of `process_article` before the acceptance gate: unwrap the
link, fetch, follow Google News, run the three extraction stages, and
absolutize the image against the final base URL.  Returns the final draft
and the base URL (which becomes the record's canonical `url`). -/
def pipelineCore (env : Env) (url0 : String) (feedTitle : Option String)
    (selectors : Option Selectors) : Draft × String :=
  let url := unwrap_special_links url0
  let fetched := fetchHtmlEx url (env.net url)
  let info := fetched.2
  let followed := gnewsFollow env fetched.1 info
  let html := followed.1
  let finalUrlUsed := followed.2
  let base := pyOrD finalUrlUsed (pyOrS info.finalUrl url)
  let st := stageSelectors env html selectors {}
  let st := stageNormal env html feedTitle base st
  let res := stageAmp env html selectors base finalUrlUsed st
  let st := res.1
  let base := res.2.1
  let image := absolutize_url env.urljoin st.image (some base)
  ({ st with image := image }, base)

/-- The final persisted article record. -/
structure Item where
  id : String
  url : String
  title : String
  image : Option String
  paragraphs : List String
  source_name : String
  published_at : String
  keyword : String
deriving DecidableEq

/-- `process_article` (the `want_debug=False` shape): pipeline, acceptance
gate, optional fail-open rewrite, then the normalized record.  The publish
timestamp is abstracted as its ISO string. -/
def processArticle (env : Env) (url0 keyword pubIso : String)
    (feedTitle feedSourceName : Option String)
    (requireH1 requireImg : Bool) (selectors : Option Selectors) :
    Option Item × Option Reason :=
  let pb := pipelineCore env url0 feedTitle selectors
  let st := pb.1
  let base := pb.2
  match acceptGate requireH1 requireImg st.title st.image st.paragraphs with
  | some r => (none, some r)
  | none =>
    let tp := if env.useAi then
        rewrite_with_openrouter
          (env.llm st.title st.paragraphs (hostname_from_url base) base)
          st.title st.paragraphs
      else (st.title, st.paragraphs)
    (some { id := stable_id base, url := base,
            title := strTake 220 (pyOrD tp.1 ""),
            image := st.image, paragraphs := tp.2,
            source_name := pyOrD feedSourceName (hostname_from_url base),
            published_at := pubIso, keyword := slugify keyword }, none)

/-! ### Persistence (`db_upsert`) -/

/-- One row of the `items` table (`paragraphs` kept as a list; the source
stores its JSON encoding). -/
structure DbRow where
  id : String
  url : String
  title : String
  image : Option String
  paragraphs : List String
  source_name : String
  published_at : String
  keyword : String
  created_at : String
deriving DecidableEq

/-- `db_upsert`: `INSERT ... ON CONFLICT(url) DO UPDATE` — on a fresh URL a
new row with `created_at = now`; on conflict only the content columns are
overwritten from the excluded row. -/
def db_upsert (item : Item) (now : String) (db : List DbRow) : List DbRow :=
  if db.any (fun r => r.url = item.url) then
    db.map fun r =>
      if r.url = item.url then
        { r with title := item.title, image := item.image,
                 paragraphs := item.paragraphs,
                 source_name := item.source_name,
                 published_at := item.published_at,
                 keyword := item.keyword }
      else r
  else
    db ++ [⟨item.id, item.url, item.title, item.image, item.paragraphs,
            item.source_name, item.published_at, item.keyword, now⟩]

def db_lookup_url (db : List DbRow) (u : String) : Option DbRow :=
  db.find? (fun r => r.url = u)

/-! ### Crawl orchestration (`crawl_keyword` / result aggregation) -/

/-- One element of `asyncio.gather(..., return_exceptions=True)`: either the
task raised (the exception object) or it returned `process_article`'s pair. -/
inductive TaskOutcome where
  | exc
  | done (item : Option Item) (reason : Option Reason)

structure Metrics where
  ok : Nat := 0
  fetch_fail : Nat := 0
  no_h1 : Nat := 0
  no_image : Nat := 0
  no_paragraphs : Nat := 0
deriving DecidableEq

/-- `metrics[reason or "fetch_fail"] += 1`. -/
def bumpReason (m : Metrics) : Option Reason → Metrics
  | some .no_h1 => { m with no_h1 := m.no_h1 + 1 }
  | some .no_image => { m with no_image := m.no_image + 1 }
  | some .no_paragraphs => { m with no_paragraphs := m.no_paragraphs + 1 }
  | none => { m with fetch_fail := m.fetch_fail + 1 }

/-- The per-result body of the aggregation loop of `crawl_keyword` (the
`db_upsert` side effect is not part of the returned value). -/
def crawlStep (acc : List Item × Metrics) (res : TaskOutcome) :
    List Item × Metrics :=
  match res with
  | .exc => (acc.1, { acc.2 with fetch_fail := acc.2.fetch_fail + 1 })
  | .done (some it) _ => (acc.1 ++ [it], { acc.2 with ok := acc.2.ok + 1 })
  | .done none r => (acc.1, bumpReason acc.2 r)

def crawlAggregate (results : List TaskOutcome) : List Item × Metrics :=
  results.foldl crawlStep ([], {})

/-- The link normalization loop of `crawl_keyword`: skip falsy and
already-seen links, and on the Ilhabela domain keep only article URLs. -/
def normLinksGo (seen : List String) : List String → List String
  | [] => []
  | l :: rest =>
    if l = "" ∨ l ∈ seen then normLinksGo seen rest
    else if pyIn "ilhabela.sp.gov.br" (pyLower l) ∧ ¬is_ilhabela_article l then
      normLinksGo seen rest
    else l :: normLinksGo (seen ++ [l]) rest

def normLinks (links : List String) : List String := normLinksGo [] links

/-- `crawl_keyword` after link gathering: dedup/filter, dispatch the first
150 links (each task outcome given by the `outcome` oracle, exceptional
completions included), and aggregate records and metrics. -/
def crawl_keyword (links : List String) (outcome : String → TaskOutcome) :
    List Item × Metrics :=
  crawlAggregate (((normLinks links).take 150).map outcome)

/-! ### Derived notions used by the statements -/

/-- Total of all metric counters. -/
def metricsTotal (m : Metrics) : Nat :=
  m.ok + m.fetch_fail + m.no_h1 + m.no_image + m.no_paragraphs

/-- Outcomes booked under `fetch_fail`: exceptional completions and pairs
without a rejection reason. -/
def isFetchFailOutcome : TaskOutcome → Bool
  | .exc => true
  | .done none none => true
  | _ => false

/-- Outcomes that produce a record. -/
def isOkOutcome : TaskOutcome → Bool
  | .done (some _) _ => true
  | _ => false

/-- A text that is just a bare URL: an http(s) scheme and no spaces. -/
def isBareUrl (s : String) : Bool :=
  (pyStartsWith s "http://" || pyStartsWith s "https://") && !pyIn " " s

/-! ### Concrete fixtures for the witnesses -/

/-- A document with no extractable content at all. -/
def emptyDoc : Doc :=
  { ldBlocks := [], ogTitle := none, titleTag := none, h1Text := none,
    ogImage := none, rootImage := none, allImgs := [], pTexts := [],
    listTexts := [], readabilityTexts := none, trafilaturaText := none,
    boilerText := none, rawText := "", ampHref := none,
    selOneText := fun _ => none, selOneImg := fun _ => none,
    selTexts := fun _ => [] }

/-- A document whose og:title and one long `<p>` suffice for a record. -/
def docEx : Doc :=
  { emptyDoc with
    ogTitle := some "Example Title",
    pTexts := ["This paragraph is long enough to pass the filter rules."] }

/-- A network/parse environment serving `docEx` for every URL. -/
def envEx : Env :=
  { net := fun _ => .resp 200 "text/html" "http://h.example/a" "<html>",
    parse := fun _ => docEx, gnewsExternal := fun _ _ => none,
    urljoin := fun _ s => s, useAi := false, llm := fun _ _ _ _ => none }

/-- The record extracted by `envEx` (used by the C1 witness). -/
def itemEx : Item :=
  ((processArticle envEx "http://h.example/a" "kw"
      "2025-01-01T00:00:00+00:00" none none true false none).1).getD
    ⟨"", "", "", none, [], "", "", ""⟩

/-- An environment that always fails to fetch (used by the C3 witness). -/
def envFail : Env :=
  { net := fun _ => .exc "connect timeout",
    parse := fun _ => emptyDoc, gnewsExternal := fun _ _ => none,
    urljoin := fun _ s => s, useAi := false, llm := fun _ _ _ _ => none }

/-- A document carrying a JSON-LD article headline (C7 witness). -/
def docSchema : Doc :=
  { emptyDoc with
    ldBlocks := [⟨"NewsArticle", some "Schema Headline", none, .nullv, none⟩],
    ogTitle := some "OG Title", titleTag := some "Title Tag",
    h1Text := some "H1" }

/-! ## Helper lemmas -/

theorem pyOrO_truthy (a b : Option String) (h : optTruthy a = true) :
    pyOrO a b = a := by
  simp [pyOrO, h]

theorem pyDedupGo_nodup (ps : List String) :
    ∀ out : List String, out.Nodup → (pyDedupGo out ps).Nodup := by
  induction ps with
  | nil => intro out h; simpa [pyDedupGo] using h
  | cons p rest ih =>
    intro out h
    by_cases hp : p ∈ out
    · simpa [pyDedupGo, hp] using ih out h
    · have hout : (out ++ [p]).Nodup := by
        simp [List.nodup_append, h, hp]
      simpa [pyDedupGo, hp] using ih _ hout

theorem strTake_le (n : Nat) (s : String) : (strTake n s).length ≤ n := by
  simp only [strTake, String.length, List.length_take]
  omega

/-! ## C10 -/

/-- C10: for every HTML input (every parsed document), the list returned by
the paragraph-extraction function `paragraphs_from_html` has no duplicate
entries and at most 14 elements, regardless of which fallback stage produced
the paragraphs. -/
theorem paragraphs_nodup_bounded (d : Doc) :
    (paragraphs_from_html d).Nodup ∧ (paragraphs_from_html d).length ≤ 14 := by
  unfold paragraphs_from_html
  constructor
  · exact List.Nodup.sublist (List.take_sublist _ _)
      (pyDedupGo_nodup _ [] List.nodup_nil)
  · simp only [List.length_take]
    omega

/-! ## C9 -/

theorem crawlAggregate_fold (results : List TaskOutcome) :
    ∀ acc : List Item × Metrics,
      metricsTotal (results.foldl crawlStep acc).2 =
        metricsTotal acc.2 + results.length ∧
      (results.foldl crawlStep acc).2.fetch_fail =
        acc.2.fetch_fail + (results.filter isFetchFailOutcome).length ∧
      (results.foldl crawlStep acc).2.ok =
        acc.2.ok + (results.filter isOkOutcome).length ∧
      (results.foldl crawlStep acc).1.length =
        acc.1.length + (results.filter isOkOutcome).length := by
  induction results with
  | nil => intro acc; simp
  | cons r rest ih =>
    intro acc
    obtain ⟨h1, h2, h3, h4⟩ := ih (crawlStep acc r)
    have hstep : metricsTotal (crawlStep acc r).2 = metricsTotal acc.2 + 1 ∧
        (crawlStep acc r).2.fetch_fail =
          acc.2.fetch_fail + (if isFetchFailOutcome r then 1 else 0) ∧
        (crawlStep acc r).2.ok =
          acc.2.ok + (if isOkOutcome r then 1 else 0) ∧
        (crawlStep acc r).1.length =
          acc.1.length + (if isOkOutcome r then 1 else 0) := by
      rcases r with _ | ⟨item, reason⟩
      · simp [crawlStep, metricsTotal, isFetchFailOutcome, isOkOutcome]
        omega
      · rcases item with _ | it
        · rcases reason with _ | rr
          · simp [crawlStep, bumpReason, metricsTotal, isFetchFailOutcome,
              isOkOutcome]
            omega
          · rcases rr <;>
              simp [crawlStep, bumpReason, metricsTotal, isFetchFailOutcome,
                isOkOutcome] <;> omega
        · simp [crawlStep, metricsTotal, isFetchFailOutcome, isOkOutcome]
          omega
    simp only [List.foldl_cons, List.filter_cons, List.length_cons]
    obtain ⟨s1, s2, s3, s4⟩ := hstep
    refine ⟨by rw [h1, s1]; omega, ?_, ?_, ?_⟩
    · rw [h2, s2]; by_cases hf : isFetchFailOutcome r <;> simp [hf] <;> omega
    · rw [h3, s3]; by_cases hf : isOkOutcome r <;> simp [hf] <;> omega
    · rw [h4, s4]; by_cases hf : isOkOutcome r <;> simp [hf] <;> omega

/-- C9: a crawl invocation over any batch of candidate links and any
per-task outcomes (exceptional completions included) always yields a
(records, metrics) pair in which every dispatched per-URL outcome
incremented exactly one rejection-reason counter (the counters sum to the
number of dispatched tasks), exceptional or reason-less outcomes are counted
as `fetch_fail`, and the record list length equals the `ok` counter; being a
total function, the aggregation never raises. -/
theorem crawl_metrics_accounting (links : List String)
    (outcome : String → TaskOutcome) :
    metricsTotal (crawl_keyword links outcome).2 =
      ((normLinks links).take 150).length ∧
    (crawl_keyword links outcome).2.fetch_fail =
      ((((normLinks links).take 150).map outcome).filter
        isFetchFailOutcome).length ∧
    (crawl_keyword links outcome).1.length =
      (crawl_keyword links outcome).2.ok := by
  obtain ⟨h1, h2, h3, h4⟩ :=
    crawlAggregate_fold (((normLinks links).take 150).map outcome) ([], {})
  unfold crawl_keyword crawlAggregate
  refine ⟨?_, ?_, ?_⟩
  · simpa [metricsTotal] using h1
  · simpa [metricsTotal] using h2
  · rw [h4, h3]; simp

/-! ## C5 -/

/-- C5: the acceptance gate is monotonic in its requirement flags — for a
fixed draft, raising `require_h1` or `require_image` from false to true can
only turn an accepted draft into a rejection, never a rejection into an
acceptance (equivalently: acceptance under the stronger flags implies
acceptance under the weaker ones). -/
theorem accept_gate_monotonic (t i : Option String) (ps : List String)
    (h1 h1' im im' : Bool) (hh : h1 = true → h1' = true)
    (hi : im = true → im' = true)
    (hOk : acceptGate h1' im' t i ps = none) :
    acceptGate h1 im t i ps = none := by
  cases h1 <;> cases h1' <;> cases im <;> cases im' <;>
    simp_all [acceptGate] <;> split_ifs at hOk ⊢ <;> simp_all

theorem accept_gate_monotonic_witness :
    acceptGate false false (some "T") none ["x"] = none :=
  accept_gate_monotonic (some "T") none ["x"] false true false false
    (fun _ => rfl) (fun h => h) (by decide)

/-! ## C2 (corrected) -/

/-- C2 counterexample: the claim states that `ok == true` implies a
non-empty body; but a 2xx HTML response with an empty text body yields
`ok = true` together with the empty string as body. -/
theorem fetch_ok_empty_body_counterexample :
    (fetchHtmlEx "http://x.example/" (.resp 200 "text/html"
        "http://x.example/" "")).2.ok = true ∧
    (fetchHtmlEx "http://x.example/" (.resp 200 "text/html"
        "http://x.example/" "")).1 = some "" := by
  decide

/-- C2 amended: the fetcher is a total function (never raises); whenever the
returned info has `ok = true`, a body string (possibly empty) is returned,
the status code satisfies `200 <= status < 300`, and the content type passes
the code's HTML-family test (`text/html`, `application/xhtml`, or any
`text/*`); whenever `ok = false` no body is returned and diagnostic
information is present (the truncated exception message on a network error,
the recorded status code otherwise). -/
theorem fetch_result_amended (url : String) (net : NetResult) :
    ((fetchHtmlEx url net).2.ok = true →
      (fetchHtmlEx url net).1.isSome = true ∧
      (∃ st, (fetchHtmlEx url net).2.status = some st ∧
        200 ≤ st ∧ st < 300) ∧
      htmlFamilyCtype (fetchHtmlEx url net).2.ctype = true) ∧
    ((fetchHtmlEx url net).2.ok = false →
      (fetchHtmlEx url net).1 = none ∧
      ((fetchHtmlEx url net).2.error.isSome = true ∨
        (fetchHtmlEx url net).2.status.isSome = true)) ∧
    (∀ msg, net = .exc msg →
      (fetchHtmlEx url net).2.ok = false ∧
      (fetchHtmlEx url net).2.error = some (strTake 300 msg)) := by
  rcases net with msg | ⟨st, ct, fu, text⟩
  · refine ⟨?_, ?_, ?_⟩ <;> simp [fetchHtmlEx]
  · refine ⟨?_, ?_, ?_⟩
    · intro hok
      have hcond : 200 ≤ st ∧ st < 300 ∧ htmlFamilyCtype ct = true := by
        by_contra hc
        rw [fetchHtmlEx, if_neg hc] at hok
        exact absurd hok (by simp)
      rw [fetchHtmlEx, if_pos hcond]
      exact ⟨rfl, ⟨st, rfl, hcond.1, hcond.2.1⟩, hcond.2.2⟩
    · intro hok
      have hcond : ¬(200 ≤ st ∧ st < 300 ∧ htmlFamilyCtype ct = true) := by
        intro hc
        rw [fetchHtmlEx, if_pos hc] at hok
        exact absurd hok (by simp)
      rw [fetchHtmlEx, if_neg hcond]
      exact ⟨rfl, Or.inr rfl⟩
    · intro msg hmsg
      exact absurd hmsg (by simp)

theorem fetch_result_amended_witness :
    (fetchHtmlEx "http://w.example/"
      (.resp 200 "text/html; charset=utf-8" "http://w.example/f"
        "<html>x</html>")).1.isSome = true ∧
    (fetchHtmlEx "http://w.example/" (.exc "boom")).2.error =
      some (strTake 300 "boom") :=
  ⟨((fetch_result_amended "http://w.example/"
      (.resp 200 "text/html; charset=utf-8" "http://w.example/f"
        "<html>x</html>")).1 (by decide)).1,
   ((fetch_result_amended "http://w.example/" (.exc "boom")).2.2
      "boom" rfl).2⟩

/-! ## C6 (corrected) -/

/-- A URL the resolver leaves untouched stays untouched. -/
theorem unwrap_fixpoint (v : String) (h : isResolvableWrapper v = false) :
    unwrap_special_links v = v := by
  unfold isResolvableWrapper at h
  unfold unwrap_special_links
  rcases Bool.or_eq_false_iff.mp h with ⟨hA, hB⟩
  by_cases c1 : pyIn "l.facebook.com" (pyLower (urlsplit v).netloc) &&
      pyStartsWith (urlsplit v).path "/l.php"
  · have hq : (qsTruthyVal (urlsplit v).query "u").isSome = false := by
      rcases Bool.and_eq_false_iff.mp hA with h' | h'
      · simp [c1] at h'
      · exact h'
    have hqn : qsTruthyVal (urlsplit v).query "u" = none := by
      cases hx : qsTruthyVal (urlsplit v).query "u" <;> simp_all
    simp only [c1, if_true, hqn]
    by_cases c2 : pyIn "facebook.com" (pyLower (urlsplit v).netloc) &&
        pyIn "href=" (urlsplit v).query
    · have hq2 : (qsTruthyVal (urlsplit v).query "href").isSome = false := by
        rcases Bool.and_eq_false_iff.mp hB with h' | h'
        · simp [c2] at h'
        · exact h'
      have hqn2 : qsTruthyVal (urlsplit v).query "href" = none := by
        cases hx : qsTruthyVal (urlsplit v).query "href" <;> simp_all
      simp [c2, hqn2]
    · simp [c2]
  · simp only [c1, if_false]
    by_cases c2 : pyIn "facebook.com" (pyLower (urlsplit v).netloc) &&
        pyIn "href=" (urlsplit v).query
    · have hq2 : (qsTruthyVal (urlsplit v).query "href").isSome = false := by
        rcases Bool.and_eq_false_iff.mp hB with h' | h'
        · simp [c2] at h'
        · exact h'
      have hqn2 : qsTruthyVal (urlsplit v).query "href" = none := by
        cases hx : qsTruthyVal (urlsplit v).query "href" <;> simp_all
      simp [c2, hqn2]
    · simp [c2]

/-- C6 counterexample: the resolver unwraps only one wrapper layer per
application, so on a doubly wrapped redirect link
`resolve(resolve(u)) != resolve(u)`. -/
theorem unwrap_not_idempotent_counterexample :
    unwrap_special_links (unwrap_special_links
      ("https://l.facebook.com/l.php?u=" ++
        "https://l.facebook.com/l.php?u=https://example.com")) ≠
    unwrap_special_links
      ("https://l.facebook.com/l.php?u=" ++
        "https://l.facebook.com/l.php?u=https://example.com") := by
  decide

/-- C6 amended: the resolver never raises (it is a total function), passes
unrecognized or target-less inputs through unchanged, and is idempotent on
every URL whose resolved result is not itself a recognized wrapper carrying
a truthy target (doubly wrapped links unwrap one layer per application). -/
theorem unwrap_idempotent_amended (u : String) :
    (isResolvableWrapper u = false → unwrap_special_links u = u) ∧
    (isResolvableWrapper (unwrap_special_links u) = false →
      unwrap_special_links (unwrap_special_links u) = unwrap_special_links u) :=
  ⟨fun h => unwrap_fixpoint u h, fun h => unwrap_fixpoint _ h⟩

theorem unwrap_idempotent_amended_witness :
    unwrap_special_links "https://plain.example/page" =
      "https://plain.example/page" ∧
    unwrap_special_links (unwrap_special_links
        "https://l.facebook.com/l.php?u=https://example.com") =
      unwrap_special_links
        "https://l.facebook.com/l.php?u=https://example.com" :=
  ⟨(unwrap_idempotent_amended "https://plain.example/page").1 (by decide),
   (unwrap_idempotent_amended
      "https://l.facebook.com/l.php?u=https://example.com").2 (by decide)⟩

/-! ## C8 (corrected) -/

/-- C8 counterexample: a text consisting of a bare URL (http scheme, no
spaces) is accepted verbatim by the paragraph classifier — there is no
bare-URL rejection rule. -/
theorem clean_paragraph_bare_url_counterexample :
    isBareUrl "https://example.org/aaaa/bbbb" = true ∧
    clean_paragraph (some "https://example.org/aaaa/bbbb") =
      some "https://example.org/aaaa/bbbb" := by
  decide

/-- C8 amended: the classifier accepts exactly the whitespace-normalized
texts that are non-empty, contain no curated call-to-action/ad/navigation
phrase (case-insensitive substring), have at least 16 characters, and do not
begin with an imperative call-to-action verb; it has no rule against bare
URLs. -/
theorem clean_paragraph_rules_amended (p t : String) :
    clean_paragraph (some p) = some t ↔
      (t = pyStrip (normWs p) ∧ t ≠ "" ∧
       BAD_SNIPPETS.any (fun b => pyIn b (pyLower t)) = false ∧
       16 ≤ t.length ∧ ctaStart (pyLower t) = false) := by
  have hform : clean_paragraph (some p) =
      (if pyStrip (normWs p) = "" then none
       else if (BAD_SNIPPETS.any fun b =>
           pyIn b (pyLower (pyStrip (normWs p)))) = true then none
       else if (pyStrip (normWs p)).length < 16 then none
       else if ctaStart (pyLower (pyStrip (normWs p))) = true then none
       else some (pyStrip (normWs p))) := rfl
  rw [hform]
  constructor
  · intro h
    split_ifs at h with h1 h2 h3 h4
    have ht : pyStrip (normWs p) = t := Option.some.inj h
    refine ⟨ht.symm, ?_, ?_, ?_, ?_⟩
    · rw [← ht]; exact h1
    · rw [← ht]; simpa using h2
    · rw [← ht]; omega
    · rw [← ht]; simpa using h4
  · rintro ⟨rfl, he, hb, hl, hc⟩
    rw [if_neg he, if_neg (by simp [hb]), if_neg (by omega),
      if_neg (by simp [hc])]

theorem clean_paragraph_rules_amended_witness :
    clean_paragraph (some "Uma frase longa o bastante para aceitar.") =
      some "Uma frase longa o bastante para aceitar." :=
  (clean_paragraph_rules_amended "Uma frase longa o bastante para aceitar."
    "Uma frase longa o bastante para aceitar.").mpr (by decide)

/-! ## C4 -/

theorem db_find_skip (u : String) (f : DbRow → DbRow)
    (hf : ∀ r, (f r).url = r.url) :
    ∀ db tail : List DbRow, (∀ r ∈ db, ¬(r.url = u)) →
      (db.map f ++ tail).find? (fun r => r.url = u) =
        tail.find? (fun r => r.url = u) := by
  intro db
  induction db with
  | nil => intro tail _; simp
  | cons r rest ih =>
    intro tail h
    have hr : ¬(r.url = u) := h r (List.mem_cons_self r rest)
    have hfr : (decide ((f r).url = u)) = false := by
      simp [hf r, hr]
    simp only [List.map_cons, List.cons_append]
    rw [List.find?_cons_of_neg _ (by simp [hf r, hr])]
    exact ih tail (fun x hx => h x (List.mem_cons_of_mem _ hx))

/-- C4: for any two records with the same url, upserting the second after
the first keeps the stored `id`, `url` and `created_at` of the first write,
while `title`, `image`, `paragraphs`, `source_name`, `published_at` and
`keyword` take the values of the second write. -/
theorem upsert_identity_content (db : List DbRow) (i1 i2 : Item)
    (n1 n2 : String) (hurl : i1.url = i2.url)
    (hfresh : db_lookup_url db i1.url = none) :
    ∃ r, db_lookup_url (db_upsert i2 n2 (db_upsert i1 n1 db)) i1.url =
        some r ∧
      r.id = i1.id ∧ r.url = i1.url ∧ r.created_at = n1 ∧
      r.title = i2.title ∧ r.image = i2.image ∧
      r.paragraphs = i2.paragraphs ∧ r.source_name = i2.source_name ∧
      r.published_at = i2.published_at ∧ r.keyword = i2.keyword := by
  have hnone : ∀ r ∈ db, ¬(r.url = i1.url) := by
    intro r hr
    have hfind := List.find?_eq_none.mp hfresh r hr
    simpa using hfind
  have h1 : db_upsert i1 n1 db = db ++
      [⟨i1.id, i1.url, i1.title, i1.image, i1.paragraphs, i1.source_name,
        i1.published_at, i1.keyword, n1⟩] := by
    unfold db_upsert
    rw [if_neg]
    intro hc
    obtain ⟨r, hr, hru⟩ := List.any_eq_true.mp hc
    exact hnone r hr (by simpa using hru)
  rw [h1]
  unfold db_upsert
  rw [if_pos (List.any_eq_true.mpr
    ⟨⟨i1.id, i1.url, i1.title, i1.image, i1.paragraphs, i1.source_name,
       i1.published_at, i1.keyword, n1⟩,
     by simp, by simp [hurl]⟩)]
  unfold db_lookup_url
  rw [List.map_append,
    db_find_skip i1.url _ (fun r => by by_cases hru : r.url = i2.url <;>
      simp [hru]) db _ hnone]
  simp only [List.map_cons, List.map_nil]
  rw [List.find?_cons_of_pos _ (by simp [hurl])]
  exact ⟨_, rfl, by simp [hurl], by simp [hurl], by simp [hurl],
    by simp [hurl], by simp [hurl], by simp [hurl], by simp [hurl],
    by simp [hurl], by simp [hurl]⟩

theorem upsert_identity_content_witness :
    ∃ r, db_lookup_url
        (db_upsert ⟨"A", "http://u.example/", "T2", some "img", ["p2"],
            "s2", "d2", "k2"⟩ "2025-01-02"
          (db_upsert ⟨"A", "http://u.example/", "T1", none, ["p1"],
              "s1", "d1", "k1"⟩ "2025-01-01" [])) "http://u.example/" =
        some r ∧
      r.id = "A" ∧ r.url = "http://u.example/" ∧
      r.created_at = "2025-01-01" ∧ r.title = "T2" ∧ r.image = some "img" ∧
      r.paragraphs = ["p2"] ∧ r.source_name = "s2" ∧
      r.published_at = "d2" ∧ r.keyword = "k2" :=
  upsert_identity_content []
    ⟨"A", "http://u.example/", "T1", none, ["p1"], "s1", "d1", "k1"⟩
    ⟨"A", "http://u.example/", "T2", some "img", ["p2"], "s2", "d2", "k2"⟩
    "2025-01-01" "2025-01-02" rfl rfl

/-! ## C7 -/

/-- C7: the title chosen by `title_from_html` follows exactly the
precedence: structured-data (JSON-LD) headline if truthy, else the og:title
content (stripped), else the document `<title>` text, else the first `<h1>`
text, else no title. -/
theorem title_resolution_precedence (d : Doc) :
    (optTruthy (parse_schema_org d.ldBlocks).headline = true →
      title_from_html d = (parse_schema_org d.ldBlocks).headline) ∧
    (optTruthy (parse_schema_org d.ldBlocks).headline = false →
      optTruthy d.ogTitle = true →
      title_from_html d = some (pyStrip (d.ogTitle.getD ""))) ∧
    (optTruthy (parse_schema_org d.ldBlocks).headline = false →
      optTruthy d.ogTitle = false → optTruthy d.titleTag = true →
      title_from_html d = d.titleTag) ∧
    (optTruthy (parse_schema_org d.ldBlocks).headline = false →
      optTruthy d.ogTitle = false → optTruthy d.titleTag = false →
      optTruthy d.h1Text = true → title_from_html d = d.h1Text) ∧
    (optTruthy (parse_schema_org d.ldBlocks).headline = false →
      optTruthy d.ogTitle = false → optTruthy d.titleTag = false →
      optTruthy d.h1Text = false → title_from_html d = none) := by
  refine ⟨?_, ?_, ?_, ?_, ?_⟩ <;> intros <;> simp_all [title_from_html]

theorem title_resolution_precedence_witness :
    title_from_html docSchema = some "Schema Headline" :=
  (title_resolution_precedence docSchema).1 (by decide)

/-! ## C3 -/

theorem ampSelTitle_keeps (d : Doc) (sel : Option Selectors)
    (t : Option String) (h : optTruthy t = true) :
    ampSelTitle d sel t = t := by
  unfold ampSelTitle
  cases sel with
  | none => rfl
  | some s =>
    dsimp only
    by_cases h1 : optTruthy s.title_sel = true
    · rw [if_pos h1]
      cases d.selOneText (s.title_sel.getD "") with
      | none => rfl
      | some v => simp [h]
    · rw [if_neg h1]

theorem ampSelImage_keeps (d : Doc) (sel : Option Selectors)
    (i : Option String) (h : optTruthy i = true) :
    ampSelImage d sel i = i := by
  unfold ampSelImage
  cases sel with
  | none => rfl
  | some s =>
    dsimp only
    by_cases h1 : optTruthy s.image_sel = true
    · rw [if_pos h1]
      cases d.selOneImg (s.image_sel.getD "") with
      | none => rfl
      | some el => simp [h]
    · rw [if_neg h1]

theorem stageNormal_keeps_title (env : Env) (html ft : Option String)
    (base : String) (st : Draft) (h : optTruthy st.title = true) :
    (stageNormal env html ft base st).title = st.title := by
  unfold stageNormal
  cases html with
  | none => rfl
  | some s =>
    dsimp only
    by_cases hc : s ≠ "" ∧ st.paragraphs = []
    · rw [if_pos hc]
      exact pyOrO_truthy _ _ h
    · rw [if_neg hc]

theorem stageNormal_keeps_image (env : Env) (html ft : Option String)
    (base : String) (st : Draft) (h : optTruthy st.image = true) :
    (stageNormal env html ft base st).image = st.image := by
  unfold stageNormal
  cases html with
  | none => rfl
  | some s =>
    dsimp only
    by_cases hc : s ≠ "" ∧ st.paragraphs = []
    · rw [if_pos hc]
      exact pyOrO_truthy _ _ h
    · rw [if_neg hc]

theorem stageNormal_skip (env : Env) (html ft : Option String)
    (base : String) (st : Draft) (h : st.paragraphs ≠ []) :
    stageNormal env html ft base st = st := by
  unfold stageNormal
  cases html with
  | none => rfl
  | some s =>
    dsimp only
    rw [if_neg]
    intro hc
    exact h hc.2

theorem stageAmp_skip (env : Env) (html : Option String)
    (selectors : Option Selectors) (base : String) (fuu : Option String)
    (st : Draft) (h : st.paragraphs ≠ []) :
    stageAmp env html selectors base fuu st = (st, base, fuu) := by
  unfold stageAmp
  rw [if_neg]
  intro hc
  exact h hc.1

theorem stageAmp_keeps_title (env : Env) (html : Option String)
    (selectors : Option Selectors) (base : String) (fuu : Option String)
    (st : Draft) (h : optTruthy st.title = true) :
    (stageAmp env html selectors base fuu st).1.title = st.title := by
  unfold stageAmp
  by_cases hc : st.paragraphs = [] ∧ optTruthy html = true
  · rw [if_pos hc]
    dsimp only
    cases ham : (env.parse (html.getD "")).ampHref with
    | none => rfl
    | some href =>
      dsimp only
      by_cases hh : href ≠ ""
      · rw [if_pos hh]
        cases hfe : (fetchHtmlEx (env.urljoin base href)
            (env.net (env.urljoin base href))).1 with
        | none => rfl
        | some ah =>
          dsimp only
          by_cases ha : ah ≠ ""
          · rw [if_pos ha]
            dsimp only
            rw [ampSelTitle_keeps _ _ _ h, if_neg (by simp [h])]
          · rw [if_neg ha]
      · rw [if_neg hh]
  · rw [if_neg hc]

theorem stageAmp_keeps_image (env : Env) (html : Option String)
    (selectors : Option Selectors) (base : String) (fuu : Option String)
    (st : Draft) (h : optTruthy st.image = true) :
    (stageAmp env html selectors base fuu st).1.image = st.image := by
  unfold stageAmp
  by_cases hc : st.paragraphs = [] ∧ optTruthy html = true
  · rw [if_pos hc]
    dsimp only
    cases ham : (env.parse (html.getD "")).ampHref with
    | none => rfl
    | some href =>
      dsimp only
      by_cases hh : href ≠ ""
      · rw [if_pos hh]
        cases hfe : (fetchHtmlEx (env.urljoin base href)
            (env.net (env.urljoin base href))).1 with
        | none => rfl
        | some ah =>
          dsimp only
          by_cases ha : ah ≠ ""
          · rw [if_pos ha]
            dsimp only
            rw [ampSelImage_keeps _ _ _ h, if_neg (by simp [h])]
          · rw [if_neg ha]
      · rw [if_neg hh]
  · rw [if_neg hc]

/-- C3: once the title, image or paragraphs of the draft are non-empty, the
later extraction stages — the normal cascade stage and the AMP fallback
re-extraction — leave them unchanged; a stage entered with a non-empty
paragraph list does not touch the draft at all (the stages only fill fields
that are still empty). -/
theorem cascade_fill_only (env : Env) (html feedTitle : Option String)
    (selectors : Option Selectors) (base : String) (fuu : Option String)
    (st : Draft) :
    (optTruthy st.title = true →
      (stageNormal env html feedTitle base st).title = st.title ∧
      (stageAmp env html selectors base fuu st).1.title = st.title) ∧
    (optTruthy st.image = true →
      (stageNormal env html feedTitle base st).image = st.image ∧
      (stageAmp env html selectors base fuu st).1.image = st.image) ∧
    (st.paragraphs ≠ [] →
      stageNormal env html feedTitle base st = st ∧
      (stageAmp env html selectors base fuu st).1 = st) :=
  ⟨fun h => ⟨stageNormal_keeps_title env html feedTitle base st h,
      stageAmp_keeps_title env html selectors base fuu st h⟩,
   fun h => ⟨stageNormal_keeps_image env html feedTitle base st h,
      stageAmp_keeps_image env html selectors base fuu st h⟩,
   fun h => ⟨stageNormal_skip env html feedTitle base st h,
      by rw [stageAmp_skip env html selectors base fuu st h]⟩⟩

theorem cascade_fill_only_witness :
    (stageNormal envFail (some "<x>") none "b"
        ⟨some "T", some "I", ["p"]⟩).title = some "T" ∧
    (stageAmp envFail (some "<x>") none "b" none
        ⟨some "T", some "I", ["p"]⟩).1 = ⟨some "T", some "I", ["p"]⟩ :=
  ⟨((cascade_fill_only envFail (some "<x>") none none "b" none
      ⟨some "T", some "I", ["p"]⟩).1 (by decide)).1,
   ((cascade_fill_only envFail (some "<x>") none none "b" none
      ⟨some "T", some "I", ["p"]⟩).2.2 (by decide)).2⟩

/-! ## C1 -/

theorem acceptGate_none_paragraphs (a b : Bool) (t i : Option String)
    (ps : List String) (h : acceptGate a b t i ps = none) : ps ≠ [] := by
  intro hps
  subst hps
  unfold acceptGate at h
  split_ifs at h <;> simp_all

theorem fillLoop_le (l : List String) :
    ∀ (wc : Nat) (acc : List String),
      acc.length ≤ (fillLoop wc acc l).length := by
  induction l with
  | nil => intro wc acc; simp [fillLoop]
  | cons p rest ih =>
    intro wc acc
    unfold fillLoop
    split_ifs with h
    · exact le_refl _
    · exact le_trans (by rw [List.length_append, List.length_singleton]; omega)
        (ih (wc + wordCount p) (acc ++ [p]))

theorem topUp_nonempty (np ps : List String) (h : ps ≠ []) :
    (if (np.map wordCount).sum < 200 then
        fillLoop ((np.map wordCount).sum) np ps
      else np).take 10 ≠ [] := by
  by_cases hwc : (np.map wordCount).sum < 200
  · rw [if_pos hwc]
    cases ps with
    | nil => exact absurd rfl h
    | cons p rest =>
      have hlen : 1 ≤ (fillLoop ((np.map wordCount).sum) np
          (p :: rest)).length := by
        unfold fillLoop
        rw [if_neg (by omega)]
        exact le_trans (by rw [List.length_append, List.length_singleton]; omega)
          (fillLoop_le rest _ _)
      intro hcon
      have hlt := congrArg List.length hcon
      rw [List.length_take] at hlt
      simp only [List.length_nil] at hlt
      omega
  · rw [if_neg hwc]
    have hnp : np ≠ [] := by
      intro hcon
      rw [hcon] at hwc
      simp at hwc
    cases np with
    | nil => exact absurd rfl hnp
    | cons q qs => simp [List.take_succ_cons]

theorem rewrite_keeps_paragraphs (resp : Option LlmOut) (t : Option String)
    (ps : List String) (h : ps ≠ []) :
    (rewrite_with_openrouter resp t ps).2 ≠ [] := by
  cases resp with
  | none => simpa [rewrite_with_openrouter] using h
  | some data =>
    simp only [rewrite_with_openrouter]
    exact topUp_nonempty _ ps h

/-- C1: every record produced by the per-URL pipeline satisfies the three
record invariants: its `id` equals `stable_id` of its `url` field, its
paragraph list is non-empty, and its title has at most 220 characters. -/
theorem process_article_record_invariants (env : Env)
    (url0 keyword pubIso : String) (feedTitle feedSourceName : Option String)
    (requireH1 requireImg : Bool) (selectors : Option Selectors) (item : Item)
    (h : (processArticle env url0 keyword pubIso feedTitle feedSourceName
        requireH1 requireImg selectors).1 = some item) :
    item.id = stable_id item.url ∧ item.paragraphs ≠ [] ∧
      item.title.length ≤ 220 := by
  unfold processArticle at h
  rcases hpc : pipelineCore env url0 feedTitle selectors with ⟨stv, basev⟩
  rw [hpc] at h
  dsimp only at h
  split at h
  · exact absurd h (by simp)
  · rename_i hg
    have hps : stv.paragraphs ≠ [] :=
      acceptGate_none_paragraphs _ _ _ _ _ hg
    have hitem := Option.some.inj h
    subst hitem
    refine ⟨rfl, ?_, strTake_le 220 _⟩
    by_cases hai : env.useAi = true
    · simp only [hai, if_true]
      exact rewrite_keeps_paragraphs _ _ _ hps
    · simp only [hai, if_false]
      exact hps

theorem process_article_record_invariants_witness :
    (processArticle envEx "http://h.example/a" "kw"
        "2025-01-01T00:00:00+00:00" none none true false none).1 =
      some itemEx ∧
    (itemEx.id = stable_id itemEx.url ∧ itemEx.paragraphs ≠ [] ∧
      itemEx.title.length ≤ 220) :=
  ⟨by decide,
   process_article_record_invariants envEx "http://h.example/a" "kw"
     "2025-01-01T00:00:00+00:00" none none true false none itemEx (by decide)⟩

end NewsAuto
